import Mathlib

/-
Verification of the Case-Tracker repository (a legal case-management UI).

This file shallowly embeds the logic-bearing parts of the source:
  * `src/unnamed/part_000` (AppointmentForm): form validation and submit,
  * `src/casetracker/src/components/calendar/CalendarView.tsx`: the
    appointment collection's save/delete merge,
  * `src/casetracker/src/components/documents/DocumentContex.tsx`: the shared
    document store (add/delete/select) and the `useDocuments` guard,
  * `src/casetracker/src/components/documents/DocumentList.tsx`: the
    search/filter/sort derivation and sort-header state machine,
  * `src/casetracker/src/components/documents/DocumentUpload.tsx`: the record
    built when a simulated upload completes,
  * `src/casetracker/src/components/documents/DocumentPreview.tsx`: the zoom
    controls.

JavaScript string primitives used by the source (`toLowerCase`, `trim`,
`split(',')`, `includes`, `localeCompare`, `new Date(s).getTime()`) are
embedded as structural recursions over `List Char` so that every definition
evaluates by kernel reduction.  React `useState` state is passed explicitly;
a callback that the source may or may not invoke is modelled as an `Option`
result (`some r` = the callback was invoked exactly once with `r`).
-/

namespace CaseTracker

/-! ## Embeddings of the JavaScript string primitives -/

/-- `String.prototype.toLowerCase` on one character (ASCII case mapping,
which is all the source's data exercises). -/
def jsToLowerChar (c : Char) : Char :=
  if 65 ≤ c.toNat ∧ c.toNat ≤ 90 then Char.ofNat (c.toNat + 32) else c

/-- `String.prototype.toLowerCase`. -/
def jsToLower (s : String) : String := ⟨s.data.map jsToLowerChar⟩

/-- `String.prototype.trim`: drop leading and trailing whitespace. -/
def jsTrim (s : String) : String :=
  ⟨((s.data.dropWhile Char.isWhitespace).reverse.dropWhile Char.isWhitespace).reverse⟩

/-- Split a character list at every occurrence of `sep` (the separator is
dropped; `n` separators yield `n+1` pieces, so the empty input yields
`[[]]`, matching `"".split(sep)` in JavaScript). -/
def splitChAux (sep : Char) (cur : List Char) : List Char → List (List Char)
  | [] => [cur.reverse]
  | c :: cs =>
    if c = sep then cur.reverse :: splitChAux sep [] cs
    else splitChAux sep (c :: cur) cs

/-- `String.prototype.split(sep)` for a one-character separator. -/
def jsSplit (sep : Char) (s : String) : List String :=
  (splitChAux sep [] s.data).map List.asString

/-- Is `p` a leading piece of `l`? (helper for the substring test). -/
def chPre : List Char → List Char → Bool
  | [], _ => true
  | _ :: _, [] => false
  | a :: as, b :: bs => a = b && chPre as bs

/-- Does `needle` occur contiguously inside the second list? -/
def chSub (needle : List Char) : List Char → Bool
  | [] => chPre needle []
  | b :: bs => chPre needle (b :: bs) || chSub needle bs

/-- `String.prototype.includes`: `jsIncludes hay needle` is true iff `needle`
occurs as a contiguous substring of `hay` (case-sensitive, as in JS). -/
def jsIncludes (hay needle : String) : Bool := chSub needle.data hay.data

/-- Strict lexicographic comparison of character lists by code point; the
sign behaviour of `String.prototype.localeCompare` is modelled as this
order (`localeCompare` returns a negative number, zero, or a positive
number according to it). -/
def lexLt : List Char → List Char → Bool
  | [], [] => false
  | [], _ :: _ => true
  | _ :: _, [] => false
  | a :: as, b :: bs => a.toNat < b.toNat || (a.toNat = b.toNat && lexLt as bs)

/-- The `Int`-valued sign of `a.localeCompare(b)`. -/
def localeCmp (a b : String) : Int :=
  if lexLt a.data b.data then -1 else if lexLt b.data a.data then 1 else 0

/-- Parse a list of decimal digits (`Number`-style, no sign); `none` when a
non-digit appears or the list is empty. -/
def parseDigits : List Char → Nat → Option Nat
  | [], _ => none
  | [c], acc =>
    if 48 ≤ c.toNat ∧ c.toNat ≤ 57 then some (acc * 10 + (c.toNat - 48)) else none
  | c :: cs, acc =>
    if 48 ≤ c.toNat ∧ c.toNat ≤ 57 then parseDigits cs (acc * 10 + (c.toNat - 48))
    else none

/-- Parse a decimal numeral string. -/
def parseNat (s : String) : Option Nat := parseDigits s.data 0

/-- Days from 1970-01-01 to the civil date `y-m-d` (Howard Hinnant's
`days_from_civil` algorithm, which is what `Date.UTC` computes for a
proleptic-Gregorian date). -/
def daysFromCivil (y m d : Int) : Int :=
  let y' := if m ≤ 2 then y - 1 else y
  let era := (if 0 ≤ y' then y' else y' - 399) / 400
  let yoe := y' - era * 400
  let mp := (m + 9) % 12
  let doy := (153 * mp + 2) / 5 + d - 1
  let doe := yoe * 365 + yoe / 4 - yoe / 100 + doy
  era * 146097 + doe - 719468

/-- `new Date(s).getTime()` for an ISO `yyyy-mm-dd` string: milliseconds from
the epoch at UTC midnight of that date.  A string that is not of that shape
does not arise in the source's data; it is mapped to `0`. -/
def parseDateMs (s : String) : Int :=
  match (jsSplit '-' s).map parseNat with
  | [some y, some m, some d] => daysFromCivil y m d * 86400000
  | _ => 0

/-! ## Appointment data model (`CalendarView.tsx`, interface `Appointment`) -/

/-- The `Appointment` record of `CalendarView.tsx` (lines 10-21).  `start` and
`end` are `Date` objects, compared and stored by their millisecond time
value, so they are embedded as integers.  The `type` and `reminder` unions
of string literals are embedded as strings. -/
structure Appointment where
  id : String
  title : String
  start : Int
  «end» : Int
  type : String
  client : Option String := none
  caseReference : Option String := none
  location : Option String := none
  notes : Option String := none
  reminder : Option String := none
deriving DecidableEq

/-- The editor's draft: `formData : Omit<Appointment, 'id'>` of
`AppointmentForm` (lines 20-30); the optional fields are plain strings in
the form (seeded with `''`). -/
structure FormData where
  title : String
  start : Int
  «end» : Int
  type : String := "appointment"
  client : String := ""
  caseReference : String := ""
  location : String := ""
  notes : String := ""
  reminder : String := "1hour"
deriving DecidableEq

/-! ## AppointmentForm: validation and submit (`src/unnamed/part_000`) -/

/-- The `newErrors` object built by `validate` (lines 88-101): the `title`
key is present iff the trimmed title is empty, the `end` key is present iff
`formData.start >= formData.end`. -/
def validateErrorList (fd : FormData) : List (String × String) :=
  (if jsTrim fd.title = "" then [("title", "Title is required")] else []) ++
  (if fd.start ≥ fd.«end» then [("end", "End time must be after start time")] else [])

/-- `validate` returns `Object.keys(newErrors).length === 0`. -/
def validate (fd : FormData) : Bool := (validateErrorList fd).isEmpty

/-- The field-keyed error map set by `validate` (`setErrors(newErrors)`); a
field that carries no error reads back as the empty string (absent keys and
`''` entries are both displayed as "no error" by the component). -/
def validateErrors (fd : FormData) (field : String) : String :=
  ((validateErrorList fd).lookup field).getD ""

/-- `apt-${Date.now()}` (line 111); `now` is the clock reading. -/
def freshId (now : Int) : String := "apt-" ++ toString now

/-- `appointment?.id || `apt-${Date.now()}``: the saved id reuses the
edited record's id when it is truthy (a non-empty string), else a fresh
one. -/
def savedId (appointment : Option Appointment) (now : Int) : String :=
  match appointment with
  | some a => if a.id = "" then freshId now else a.id
  | none => freshId now

/-- The `appointmentToSave` object of `handleSubmit` (lines 110-113): the
synthesised/reused id together with every draft field. -/
def mkSavedAppointment (appointment : Option Appointment) (fd : FormData)
    (now : Int) : Appointment :=
  { id := savedId appointment now
    title := fd.title
    start := fd.start
    «end» := fd.«end»
    type := fd.type
    client := some fd.client
    caseReference := some fd.caseReference
    location := some fd.location
    notes := some fd.notes
    reminder := some fd.reminder }

/-- `handleSubmit` (lines 103-116): if `validate()` fails the save callback
is not invoked (`none`); otherwise `onSave` receives exactly one complete
record (`some` of it). -/
def handleSubmit (appointment : Option Appointment) (fd : FormData)
    (now : Int) : Option Appointment :=
  if validate fd then some (mkSavedAppointment appointment fd now) else none

/-- The effect of `handleInputChange` (lines 65-86) on the error map: when
the edited field currently has an error it is reset to `''`; every other
field is untouched.  (The form-data update performed by the same handler is
orthogonal to the error map and is not needed by the claims.) -/
def handleInputChangeErrors (name : String) (errors : String → String) :
    String → String :=
  if errors name ≠ "" then (fun k => if k = name then "" else errors k)
  else errors

example : validate { title := "Client Meeting", start := 0, «end» := 60 } = true := by decide

example : validate { title := "   ", start := 0, «end» := 60 } = false := by decide

example : validateErrors { title := "x", start := 5, «end» := 5 } "end" =
    "End time must be after start time" := by decide

/-! ## CalendarView: the appointment collection (`CalendarView.tsx`) -/

/-- `handleSaveAppointment` (lines 91-104): when an existing appointment was
selected (edit mode) the collection is mapped, replacing entries whose id
matches the saved record's; otherwise (create mode) the record is appended. -/
def handleSaveAppointment (selected : Option Appointment)
    (appointments : List Appointment) (appointment : Appointment) :
    List Appointment :=
  match selected with
  | some _ =>
    appointments.map (fun apt => if apt.id = appointment.id then appointment else apt)
  | none => appointments ++ [appointment]

/-- Modelled from the spec's words (the claim's description of the merge):
replace the existing entry whose id matches when such an entry is present,
else append. -/
def replaceOrAppendById (appointments : List Appointment)
    (appointment : Appointment) : List Appointment :=
  if appointments.any (fun apt => apt.id = appointment.id) then
    appointments.map (fun apt => if apt.id = appointment.id then appointment else apt)
  else appointments ++ [appointment]

/-- `handleDeleteAppointment` (lines 106-110): remove by id. -/
def handleDeleteAppointment (appointments : List Appointment) (id : String) :
    List Appointment :=
  appointments.filter (fun apt => apt.id ≠ id)

/-! ## Document data model and shared store (`DocumentContex.tsx`) -/

/-- The `Document` interface (lines 4-14).  `uploadDate` stays the calendar
date string the source stores; `tags` is the list the flows construct
(`tags?: string[]` is always supplied a list by the upload flow and the mock
data). -/
structure Document where
  id : String
  name : String
  type : String
  uploadDate : String
  uploader : String
  tags : List String := []
  clientCase : Option String := none
  fileUrl : String
  fileSize : Option Nat := none
deriving DecidableEq

/-- The provider's state: the ordered collection plus the non-owning
selection (lines 77-78). -/
structure DocState where
  documents : List Document
  selectedDocument : Option Document := none
deriving DecidableEq

/-- `addDocument` (lines 80-82): prepends. -/
def addDocument (st : DocState) (d : Document) : DocState :=
  { st with documents := d :: st.documents }

/-- `deleteDocument` (lines 84-89): filters the collection by id and clears
the selection when the selected document carries the deleted id. -/
def deleteDocument (st : DocState) (id : String) : DocState :=
  { documents := st.documents.filter (fun doc => doc.id ≠ id)
    selectedDocument :=
      match st.selectedDocument with
      | some doc => if doc.id = id then none else some doc
      | none => none }

/-- `setSelectedDocument` (line 78): sets the selection, `none` clears it. -/
def setSelectedDocument (st : DocState) (d : Option Document) : DocState :=
  { st with selectedDocument := d }

/-- `useDocuments` (lines 107-113): the context is `undefined` outside a
provider (`none`) and the hook throws; inside a provider it returns the
context value. -/
def useDocuments (ctx : Option DocState) : Except String DocState :=
  match ctx with
  | none => Except.error "useDocuments must be used within a DocumentProvider"
  | some c => Except.ok c

/-! ## DocumentList: search / filter / sort derivation (`DocumentList.tsx`) -/

/-- The sort keys of the list (line 10). -/
inductive SortKey where
  | name
  | date
  | uploader
deriving DecidableEq

/-- The sort directions (line 11). -/
inductive SortOrder where
  | asc
  | desc
deriving DecidableEq

/-- The list's sort state: active key and direction. -/
structure SortState where
  sortBy : SortKey
  sortOrder : SortOrder
deriving DecidableEq

/-- The filter predicate of `filteredDocuments` (lines 40-46):
`matchesSearch && matchesType`.  `doc.clientCase?.toLowerCase().includes(x)`
is `undefined` (falsy) when `clientCase` is absent. -/
def matchesDoc (searchTerm filterType : String) (doc : Document) : Bool :=
  (jsIncludes (jsToLower doc.name) (jsToLower searchTerm) ||
   jsIncludes (jsToLower doc.uploader) (jsToLower searchTerm) ||
   (match doc.clientCase with
    | some c => jsIncludes (jsToLower c) (jsToLower searchTerm)
    | none => false)) &&
  (filterType = "all" || doc.type = filterType)

/-- The `comparison` value of the sort comparator (lines 49-61):
`localeCompare` on names or uploaders, date difference in milliseconds for
`date`. -/
def compareDocs (sortBy : SortKey) (a b : Document) : Int :=
  match sortBy with
  | .name => localeCmp a.name b.name
  | .date => parseDateMs a.uploadDate - parseDateMs b.uploadDate
  | .uploader => localeCmp a.uploader b.uploader

/-- The comparator actually handed to `sort` (line 62):
`sortOrder === 'asc' ? comparison : -comparison`. -/
def effCompare (sortBy : SortKey) (sortOrder : SortOrder) (a b : Document) : Int :=
  match sortOrder with
  | .asc => compareDocs sortBy a b
  | .desc => -(compareDocs sortBy a b)

/-- `a` may be placed before `b` by the sort: the comparator is
non-positive. -/
def docLe (sortBy : SortKey) (sortOrder : SortOrder) (a b : Document) : Prop :=
  effCompare sortBy sortOrder a b ≤ 0

instance (k : SortKey) (o : SortOrder) : DecidableRel (docLe k o) :=
  fun _ _ => inferInstanceAs (Decidable (_ ≤ _))

/-- `filteredDocuments` (lines 39-66): filter then sort with the comparator
(JavaScript `Array.prototype.sort` is stable; a stable sorted permutation is
modelled by insertion sort). -/
def filteredDocuments (documents : List Document) (searchTerm filterType : String)
    (sortBy : SortKey) (sortOrder : SortOrder) : List Document :=
  (documents.filter (matchesDoc searchTerm filterType)).insertionSort
    (docLe sortBy sortOrder)

/-- The ordering the claim states for one key: lexicographic on names or
uploaders, chronological on upload dates. -/
def keyOrder (sortBy : SortKey) (a b : Document) : Prop :=
  match sortBy with
  | .name => lexLt b.name.data a.name.data = false
  | .date => parseDateMs a.uploadDate ≤ parseDateMs b.uploadDate
  | .uploader => lexLt b.uploader.data a.uploader.data = false

/-- The claim's ordering in the chosen direction. -/
def dirOrder (sortBy : SortKey) (sortOrder : SortOrder) (a b : Document) : Prop :=
  match sortOrder with
  | .asc => keyOrder sortBy a b
  | .desc => keyOrder sortBy b a

/-- The derivation restricted to the type filter alone (no search term), as
the words of claim C10 describe it. -/
def filteredDocumentsTypeOnly (documents : List Document) (filterType : String)
    (sortBy : SortKey) (sortOrder : SortOrder) : List Document :=
  (documents.filter (fun doc => filterType = "all" || doc.type = filterType)).insertionSort
    (docLe sortBy sortOrder)

/-- `handleSort` (lines 81-88): clicking the active key toggles the
direction, clicking another key selects it and resets to ascending. -/
def handleSort (st : SortState) (field : SortKey) : SortState :=
  if st.sortBy = field then
    { st with sortOrder := if st.sortOrder = .asc then .desc else .asc }
  else { sortBy := field, sortOrder := .asc }

/-! ## DocumentUpload: the record built at progress 100 (`DocumentUpload.tsx`) -/

/-- One tick of the simulated progress (line 51):
`Math.min(uf.progress + 10, 100)`. -/
def progressStep (p : Nat) : Nat := min (p + 10) 100

/-- The media-type classification at completion (lines 57-58): substring
match on the file's declared content type. -/
def classifyFileType (declaredType : String) : String :=
  if jsIncludes declaredType "pdf" then "pdf"
  else if jsIncludes declaredType "image" then "image"
  else "docx"

/-- Modelled from the claim's words: the user-entered tags string split on
commas with each element trimmed. -/
def splitTrimTags (tags : String) : List String :=
  (jsSplit ',' tags).map jsTrim

/-- The `newDocument` record built when a simulated upload reaches progress
100 (lines 60-70).  `ufId` is the tracking entry's id, `fileName` /
`declaredType` / `fileSize` come from the `File`, `uploader` / `tags` /
`clientCase` are the user-entered metadata strings, `today` is
`new Date().toISOString().split('T')[0]` and `url` the object URL. -/
def mkUploadDocument (ufId fileName declaredType : String) (fileSize : Nat)
    (uploader tags clientCase : String) (today url : String) : Document :=
  { id := ufId
    name := fileName
    type := classifyFileType declaredType
    uploadDate := today
    uploader := uploader
    tags := if tags ≠ "" then (jsSplit ',' tags).map jsTrim else []
    clientCase := if clientCase = "" then none else some clientCase
    fileUrl := url
    fileSize := some fileSize }

/-! ## DocumentPreview: zoom controls (`DocumentPreview.tsx`) -/

/-- The initial zoom level (line 14): `useState(1.0)`. -/
def scaleInit : ℚ := 1.0

/-- `handleZoomIn` (lines 54-56): `Math.min(prev + 0.2, 3.0)` (exact
arithmetic; the source's IEEE doubles are embedded as rationals). -/
def handleZoomIn (scale : ℚ) : ℚ := min (scale + 0.2) 3.0

/-- `handleZoomOut` (lines 58-60): `Math.max(prev - 0.2, 0.5)`. -/
def handleZoomOut (scale : ℚ) : ℚ := max (scale - 0.2) 0.5

/-- The zoom level after a sequence of zoom actions (`true` = zoom in,
`false` = zoom out), starting from the initial 1.0. -/
def applyZoomSeq (acts : List Bool) : ℚ :=
  acts.foldl (fun s a => if a then handleZoomIn s else handleZoomOut s) scaleInit

/-- The zoom level after `n` zoom-in clicks from the initial 1.0. -/
def zoomInIter : Nat → ℚ
  | 0 => scaleInit
  | n + 1 => handleZoomIn (zoomInIter n)

example : classifyFileType "application/pdf" = "pdf" := by decide

example : classifyFileType "image/png" = "image" := by decide

example : classifyFileType "application/msword" = "docx" := by decide

example : matchesDoc "smith" "all"
    { id := "1", name := "Client Agreement - Smith v. Jones", type := "pdf",
      uploadDate := "2024-10-15", uploader := "John Doe",
      clientCase := some "Smith v. Jones", fileUrl := "/mock/agreement.pdf" } = true := by
  decide

example : matchesDoc "smith" "all"
    { id := "2", name := "Evidence Photo - Crime Scene", type := "image",
      uploadDate := "2024-10-20", uploader := "Jane Smith",
      clientCase := some "State v. Brown", fileUrl := "u" } = true := by decide

example : parseDateMs "2024-10-15" = 1728950400000 := by decide

example : zoomInIter 2 = 1.4 := by
  simp only [zoomInIter, handleZoomIn, scaleInit]; norm_num [min_def]

/-! ## Concrete sample records (used by witnesses and counterexamples) -/

/-- A stored appointment, as the calendar's collection holds it. -/
def aptExisting : Appointment :=
  { id := "apt-100", title := "Existing", start := 0, «end» := 60,
    type := "appointment" }

/-- A record handed over by the editor's save callback carrying the same id
as `aptExisting`. -/
def aptSaved : Appointment :=
  { id := "apt-100", title := "Saved", start := 0, «end» := 60,
    type := "appointment" }

/-- An edited version of `aptExisting`. -/
def aptEdited : Appointment :=
  { id := "apt-100", title := "Edited", start := 0, «end» := 90,
    type := "appointment" }

/-- A stored appointment with id `apt-1`, used when exercising the editor. -/
def aptOld : Appointment :=
  { id := "apt-1", title := "Old", start := 0, «end» := 60,
    type := "appointment" }

/-- A draft that fails both validation checks: whitespace-only title and an
end not after its start. -/
def fdBothBad : FormData := { title := "  ", start := 60, «end» := 30 }

/-- A draft that passes validation. -/
def fdGood : FormData := { title := "Client Meeting", start := 30, «end» := 60 }

/-- A sample stored document. -/
def docA : Document :=
  { id := "1", name := "A", type := "pdf", uploadDate := "2024-10-15",
    uploader := "John Doe", fileUrl := "u" }

/-- A store holding `docA`, with `docA` selected. -/
def stateA : DocState := { documents := [docA], selectedDocument := some docA }

/-! ## Order lemmas for the lexicographic comparison -/

theorem char_eq_of_toNat_eq {a b : Char} (h : a.toNat = b.toNat) : a = b :=
  Char.eq_of_val_eq (UInt32.ext h)

theorem lexLt_irrefl : ∀ l : List Char, lexLt l l = false := by
  intro l
  induction l with
  | nil => rfl
  | cons a as ih => simp [lexLt, ih]

theorem lexLt_trans : ∀ {a b c : List Char},
    lexLt a b = true → lexLt b c = true → lexLt a c = true := by
  intro a
  induction a with
  | nil =>
    intro b c hab hbc
    cases b with
    | nil => simp [lexLt] at hab
    | cons y ys =>
      cases c with
      | nil => simp [lexLt] at hbc
      | cons z zs => simp [lexLt]
  | cons x xs ih =>
    intro b c hab hbc
    cases b with
    | nil => simp [lexLt] at hab
    | cons y ys =>
      cases c with
      | nil => simp [lexLt] at hbc
      | cons z zs =>
        simp only [lexLt, Bool.or_eq_true, Bool.and_eq_true, decide_eq_true_eq] at hab hbc ⊢
        rcases hab with h1 | ⟨h1, h1'⟩ <;> rcases hbc with h2 | ⟨h2, h2'⟩
        · exact Or.inl (lt_trans h1 h2)
        · exact Or.inl (h2 ▸ h1)
        · exact Or.inl (h1 ▸ h2)
        · exact Or.inr ⟨h1.trans h2, ih h1' h2'⟩

theorem lexLt_total : ∀ a b : List Char,
    lexLt a b = true ∨ lexLt b a = true ∨ a = b := by
  intro a
  induction a with
  | nil =>
    intro b
    cases b with
    | nil => exact Or.inr (Or.inr rfl)
    | cons y ys => exact Or.inl (by simp [lexLt])
  | cons x xs ih =>
    intro b
    cases b with
    | nil => exact Or.inr (Or.inl (by simp [lexLt]))
    | cons y ys =>
      rcases lt_trichotomy x.toNat y.toNat with h | h | h
      · exact Or.inl (by simp [lexLt, h])
      · rcases ih ys with h' | h' | h'
        · exact Or.inl (by simp [lexLt, h, h'])
        · exact Or.inr (Or.inl (by simp [lexLt, h.symm, h']))
        · exact Or.inr (Or.inr (by rw [char_eq_of_toNat_eq h, h']))
      · exact Or.inr (Or.inl (by simp [lexLt, h]))

theorem lexLt_asymm {a b : List Char} (h : lexLt a b = true) :
    lexLt b a = false := by
  by_contra hc
  have hba : lexLt b a = true := by
    cases hh : lexLt b a with
    | true => rfl
    | false => exact absurd hh hc
  have := lexLt_trans h hba
  rw [lexLt_irrefl] at this
  exact Bool.false_ne_true this

theorem lexLt_le_trans {a b c : List Char} (hba : lexLt b a = false)
    (hcb : lexLt c b = false) : lexLt c a = false := by
  cases hca : lexLt c a with
  | false => rfl
  | true =>
    exfalso
    rcases lexLt_total b c with h | h | h
    · have := lexLt_trans h hca
      rw [this] at hba
      exact Bool.false_ne_true hba.symm
    · rw [h] at hcb
      exact Bool.false_ne_true hcb.symm
    · rw [h] at hba
      rw [hca] at hba
      exact Bool.false_ne_true hba.symm

theorem lexLe_total (a b : List Char) :
    lexLt b a = false ∨ lexLt a b = false := by
  rcases lexLt_total a b with h | h | h
  · exact Or.inl (lexLt_asymm h)
  · exact Or.inr (lexLt_asymm h)
  · rw [h]
    exact Or.inl (lexLt_irrefl b)

theorem localeCmp_le_iff (a b : String) :
    localeCmp a b ≤ 0 ↔ lexLt b.data a.data = false := by
  unfold localeCmp
  by_cases h1 : lexLt a.data b.data
  · simp [h1, lexLt_asymm h1]
  · by_cases h2 : lexLt b.data a.data
    · simp [h1, h2]
    · simp [h1, h2, Bool.eq_false_iff]

theorem localeCmp_neg_le_iff (a b : String) :
    -localeCmp a b ≤ 0 ↔ lexLt a.data b.data = false := by
  unfold localeCmp
  by_cases h1 : lexLt a.data b.data
  · simp [h1]
  · by_cases h2 : lexLt b.data a.data
    · simp [h1, h2, Bool.eq_false_iff]
    · simp [h1, h2, Bool.eq_false_iff]

theorem localeCmp_nonneg_iff (a b : String) :
    0 ≤ localeCmp a b ↔ lexLt a.data b.data = false := by
  unfold localeCmp
  by_cases h1 : lexLt a.data b.data
  · simp [h1]
  · by_cases h2 : lexLt b.data a.data
    · simp [h1, h2, Bool.eq_false_iff]
    · simp [h1, h2, Bool.eq_false_iff]

theorem effCompare_le_iff (k : SortKey) (o : SortOrder) (a b : Document) :
    effCompare k o a b ≤ 0 ↔ dirOrder k o a b := by
  cases k <;> cases o <;>
    simp [effCompare, compareDocs, dirOrder, keyOrder, localeCmp_le_iff,
      localeCmp_nonneg_iff, sub_nonpos, neg_sub]

theorem docLe_total (k : SortKey) (o : SortOrder) (a b : Document) :
    docLe k o a b ∨ docLe k o b a := by
  rw [docLe, docLe, effCompare_le_iff, effCompare_le_iff]
  cases k <;> cases o <;> simp only [dirOrder, keyOrder]
  · exact lexLe_total a.name.data b.name.data
  · exact lexLe_total b.name.data a.name.data
  · exact le_total _ _
  · exact le_total _ _
  · exact lexLe_total a.uploader.data b.uploader.data
  · exact lexLe_total b.uploader.data a.uploader.data

theorem docLe_trans (k : SortKey) (o : SortOrder) {a b c : Document}
    (hab : docLe k o a b) (hbc : docLe k o b c) : docLe k o a c := by
  rw [docLe, effCompare_le_iff] at hab hbc ⊢
  cases k <;> cases o <;> simp only [dirOrder, keyOrder] at hab hbc ⊢
  · exact lexLt_le_trans hab hbc
  · exact lexLt_le_trans hbc hab
  · exact le_trans hab hbc
  · exact le_trans hbc hab
  · exact lexLt_le_trans hab hbc
  · exact lexLt_le_trans hbc hab

/-! ## Helper lemmas: substrings and zoom bounds -/

theorem chSub_nil (l : List Char) : chSub [] l = true := by
  cases l <;> simp [chSub, chPre]

theorem jsIncludes_empty_needle (s : String) : jsIncludes s "" = true :=
  chSub_nil s.data

theorem jsToLower_empty : jsToLower "" = "" := rfl

theorem handleZoomIn_bounds {s : ℚ} (h1 : 0.5 ≤ s) :
    0.5 ≤ handleZoomIn s ∧ handleZoomIn s ≤ 3.0 :=
  ⟨le_min (by linarith) (by norm_num), min_le_right _ _⟩

theorem handleZoomOut_bounds {s : ℚ} (h2 : s ≤ 3.0) :
    0.5 ≤ handleZoomOut s ∧ handleZoomOut s ≤ 3.0 :=
  ⟨le_max_right _ _, max_le (by linarith) (by norm_num)⟩

theorem zoomFold_bounds : ∀ (acts : List Bool) (s : ℚ), 0.5 ≤ s → s ≤ 3.0 →
    0.5 ≤ acts.foldl (fun t a => if a then handleZoomIn t else handleZoomOut t) s ∧
    acts.foldl (fun t a => if a then handleZoomIn t else handleZoomOut t) s ≤ 3.0 := by
  intro acts
  induction acts with
  | nil => intro s h1 h2; simpa using ⟨h1, h2⟩
  | cons a as ih =>
    intro s h1 h2
    simp only [List.foldl_cons]
    cases a
    · simp only [Bool.false_eq_true, if_false]
      exact ih _ (handleZoomOut_bounds h2).1 (handleZoomOut_bounds h2).2
    · simp only [if_true]
      exact ih _ (handleZoomIn_bounds h1).1 (handleZoomIn_bounds h1).2

theorem zoomInIter_ten : zoomInIter 10 = 3.0 := by
  simp only [zoomInIter, handleZoomIn, scaleInit]
  norm_num [min_def]

theorem handleZoomIn_ceiling : handleZoomIn 3.0 = 3.0 := by
  norm_num [handleZoomIn, min_def]

theorem zoomInIter_of_ten_le {n : Nat} (h : 10 ≤ n) : zoomInIter n = 3.0 := by
  induction n, h using Nat.le_induction with
  | base => exact zoomInIter_ten
  | succ n _ ih => rw [zoomInIter, ih, handleZoomIn_ceiling]

/-! ## Claim theorems -/

/-- Claim C6: the preview zoom starts at 1.0, moves in 0.2 steps and is
clamped to the interval [0.5, 3.0]: after any sequence of zoom-in (`true`)
and zoom-out (`false`) actions the level is within the interval, and `n`
zoom-in clicks from the start reach and hold the 3.0 ceiling for every
`n ≥ 10`. -/
theorem documentPreview_zoom_clamped (acts : List Bool) (n : Nat)
    (h10 : 10 ≤ n) :
    (0.5 ≤ applyZoomSeq acts ∧ applyZoomSeq acts ≤ 3.0) ∧
    zoomInIter n = 3.0 ∧ applyZoomSeq [] = 1.0 :=
  ⟨zoomFold_bounds acts scaleInit (by norm_num [scaleInit]) (by norm_num [scaleInit]),
   zoomInIter_of_ten_le h10, by norm_num [applyZoomSeq, scaleInit]⟩

/-- Witness for C6 at the spec's scenario: six zoom-in actions stay within
the interval, and 11 zoom-in clicks sit at the 3.0 ceiling. -/
theorem documentPreview_zoom_clamped_witness :
    (0.5 ≤ applyZoomSeq [true, true, true, true, true, true] ∧
      applyZoomSeq [true, true, true, true, true, true] ≤ 3.0) ∧
    zoomInIter 11 = 3.0 ∧ applyZoomSeq [] = 1.0 :=
  documentPreview_zoom_clamped [true, true, true, true, true, true] 11
    (by norm_num)

/-- Claim C9: reading the shared document store through `useDocuments`
outside a provider-initialised scope (`none` context) raises immediately;
inside an initialised scope (`some` context) it never raises and returns the
store. -/
theorem useDocuments_guard_spec (c : DocState) :
    useDocuments none =
      Except.error "useDocuments must be used within a DocumentProvider" ∧
    useDocuments (some c) = Except.ok c :=
  ⟨rfl, rfl⟩

/-- Claim C8: editing a field that currently has an error clears exactly
that field's error and leaves every other field's error unchanged. -/
theorem appointmentForm_clearError_spec (f g : String)
    (errors : String → String) (hf : errors f ≠ "") (hg : g ≠ f) :
    handleInputChangeErrors f errors f = "" ∧
    handleInputChangeErrors f errors g = errors g := by
  unfold handleInputChangeErrors
  rw [if_pos hf]
  exact ⟨if_pos rfl, if_neg hg⟩

/-- Witness for C8: with a `title` error set, editing `title` clears it and
the `end` error is untouched. -/
theorem appointmentForm_clearError_spec_witness :
    handleInputChangeErrors "title"
      (fun k => if k = "title" then "Title is required"
        else if k = "end" then "End time must be after start time" else "")
      "title" = "" ∧
    handleInputChangeErrors "title"
      (fun k => if k = "title" then "Title is required"
        else if k = "end" then "End time must be after start time" else "")
      "end" = "End time must be after start time" := by
  have h := appointmentForm_clearError_spec "title" "end"
    (fun k => if k = "title" then "Title is required"
      else if k = "end" then "End time must be after start time" else "")
    (by decide) (by decide)
  exact ⟨h.1, by rw [h.2]; decide⟩

/-- Claim C7: clicking the active sort key keeps the key and toggles the
direction (the direction changes, and there are only two directions);
clicking a different key selects it and resets the direction to
ascending. -/
theorem documentList_handleSort_spec (st : SortState) (field : SortKey) :
    (field = st.sortBy →
      (handleSort st field).sortBy = st.sortBy ∧
      (handleSort st field).sortOrder ≠ st.sortOrder) ∧
    (field ≠ st.sortBy →
      (handleSort st field).sortBy = field ∧
      (handleSort st field).sortOrder = SortOrder.asc) := by
  constructor
  · intro h
    unfold handleSort
    rw [if_pos h.symm]
    refine ⟨rfl, ?_⟩
    cases st.sortOrder <;> simp
  · intro h
    unfold handleSort
    rw [if_neg (fun hh => h hh.symm)]
    exact ⟨rfl, rfl⟩

/-- Claim C1: the editor's save callback fires iff the draft's trimmed title
is non-empty and its end is strictly after its start; when it fires it
receives exactly one complete record whose id is the edited record's id when
editing (the data-model invariant: stored ids are non-empty) and a freshly
synthesised id when creating; otherwise save is blocked and the field-keyed
errors are set, the two checks firing independently. -/
theorem appointmentForm_save_iff_valid (appointment : Option Appointment)
    (fd : FormData) (now : Int)
    (hid : appointment.all (fun a => a.id != "") = true) :
    ((handleSubmit appointment fd now).isSome = true ↔
      (jsTrim fd.title ≠ "" ∧ fd.start < fd.«end»)) ∧
    (jsTrim fd.title ≠ "" → fd.start < fd.«end» →
      handleSubmit appointment fd now = some (mkSavedAppointment appointment fd now) ∧
      (mkSavedAppointment appointment fd now).id =
        (match appointment with
         | some a => a.id
         | none => freshId now)) ∧
    (jsTrim fd.title = "" →
      handleSubmit appointment fd now = none ∧
      validateErrors fd "title" = "Title is required") ∧
    (fd.«end» ≤ fd.start →
      handleSubmit appointment fd now = none ∧
      validateErrors fd "end" = "End time must be after start time") := by
  by_cases h1 : jsTrim fd.title = "" <;> by_cases h2 : fd.start ≥ fd.«end»
  · have hEL : validateErrorList fd =
        [("title", "Title is required"), ("end", "End time must be after start time")] := by
      simp [validateErrorList, h1, h2]
    have hsub : handleSubmit appointment fd now = none := by
      simp [handleSubmit, validate, hEL]
    refine ⟨?_, ?_, ?_, ?_⟩
    · constructor
      · intro hc; rw [hsub] at hc; simp at hc
      · rintro ⟨hc, -⟩; exact absurd h1 hc
    · intro hc _; exact absurd h1 hc
    · intro _; exact ⟨hsub, by rw [validateErrors, hEL]; rfl⟩
    · intro _; exact ⟨hsub, by rw [validateErrors, hEL]; rfl⟩
  · have hEL : validateErrorList fd = [("title", "Title is required")] := by
      simp [validateErrorList, h1, h2]
    have hsub : handleSubmit appointment fd now = none := by
      simp [handleSubmit, validate, hEL]
    refine ⟨?_, ?_, ?_, ?_⟩
    · constructor
      · intro hc; rw [hsub] at hc; simp at hc
      · rintro ⟨hc, -⟩; exact absurd h1 hc
    · intro hc _; exact absurd h1 hc
    · intro _; exact ⟨hsub, by rw [validateErrors, hEL]; rfl⟩
    · intro hle; exact absurd hle h2
  · have hEL : validateErrorList fd = [("end", "End time must be after start time")] := by
      simp [validateErrorList, h1, h2]
    have hsub : handleSubmit appointment fd now = none := by
      simp [handleSubmit, validate, hEL]
    refine ⟨?_, ?_, ?_, ?_⟩
    · constructor
      · intro hc; rw [hsub] at hc; simp at hc
      · rintro ⟨-, hlt⟩; exact absurd hlt (not_lt.mpr h2)
    · intro _ hlt; exact absurd hlt (not_lt.mpr h2)
    · intro hc; exact absurd hc h1
    · intro _; exact ⟨hsub, by rw [validateErrors, hEL]; rfl⟩
  · have hEL : validateErrorList fd = [] := by
      simp [validateErrorList, h1, h2]
    have hsub : handleSubmit appointment fd now =
        some (mkSavedAppointment appointment fd now) := by
      simp [handleSubmit, validate, hEL]
    refine ⟨?_, ?_, ?_, ?_⟩
    · constructor
      · intro _; exact ⟨h1, not_le.mp h2⟩
      · intro _; rw [hsub]; rfl
    · intro _ _
      refine ⟨hsub, ?_⟩
      cases appointment with
      | none => simp [mkSavedAppointment, savedId]
      | some a =>
        have ha : a.id ≠ "" := by simpa using hid
        simp [mkSavedAppointment, savedId, ha]
    · intro hc; exact absurd hc h1
    · intro hle; exact absurd hle h2

/-- Witness for C1: editing `apt-1` with a whitespace title and a
non-positive duration blocks save and sets both errors; fixing both fields
saves one record that keeps the id `apt-1`. -/
theorem appointmentForm_save_iff_valid_witness :
    (handleSubmit (some aptOld) fdBothBad 99 = none ∧
      validateErrors fdBothBad "title" = "Title is required" ∧
      validateErrors fdBothBad "end" = "End time must be after start time") ∧
    (mkSavedAppointment (some aptOld) fdGood 99).id = "apt-1" := by
  have hbad := appointmentForm_save_iff_valid (some aptOld) fdBothBad 99
    (by decide)
  have hgood := appointmentForm_save_iff_valid (some aptOld) fdGood 99
    (by decide)
  exact ⟨⟨(hbad.2.2.1 (by decide)).1, (hbad.2.2.1 (by decide)).2,
    (hbad.2.2.2 (by decide)).2⟩,
    (hgood.2.1 (by decide) (by decide)).2⟩

/-- Counterexample to claim C2 as stated: in create mode (no appointment
selected) the calendar appends unconditionally, so a saved record whose id
already occurs in the collection is appended as a duplicate instead of
replacing the matching entry. -/
theorem calendarView_merge_counterexample :
    handleSaveAppointment none [aptExisting] aptSaved = [aptExisting, aptSaved] ∧
    replaceOrAppendById [aptExisting] aptSaved = [aptSaved] ∧
    handleSaveAppointment none [aptExisting] aptSaved ≠
      replaceOrAppendById [aptExisting] aptSaved := by
  refine ⟨by decide, by decide, by decide⟩

/-- Claim C2 amended: the calendar branches on the editing mode rather than
on id presence — edit mode maps the collection replacing entries with the
saved id, create mode appends unconditionally.  Whenever edit mode is
entered with the saved id present and create mode with the saved id absent
(which the editor wiring guarantees: an edited record comes from the
collection and a created record gets a freshly synthesised id), this
coincides with replace-if-present-else-append. -/
theorem calendarView_merge_matches_spec (selected : Option Appointment)
    (appointments : List Appointment) (ap : Appointment)
    (hEdit : selected.isSome = true →
      appointments.any (fun x => x.id = ap.id) = true)
    (hCreate : selected.isSome = false →
      appointments.any (fun x => x.id = ap.id) = false) :
    handleSaveAppointment selected appointments ap =
      replaceOrAppendById appointments ap := by
  cases selected with
  | some s =>
    have h := hEdit rfl
    rw [handleSaveAppointment, replaceOrAppendById, if_pos h]
  | none =>
    have h := hCreate rfl
    rw [handleSaveAppointment, replaceOrAppendById, if_neg (by simp [h])]

/-- Witness for C2 amended: saving an edit of the only entry replaces it. -/
theorem calendarView_merge_matches_spec_witness :
    handleSaveAppointment (some aptExisting) [aptExisting] aptEdited =
      replaceOrAppendById [aptExisting] aptEdited :=
  calendarView_merge_matches_spec _ _ _ (fun _ => by decide) (by decide)

/-- Claim C4: deleting an id removes exactly the records carrying that id
from the collection; the selection is cleared iff it pointed at the deleted
id, and is untouched otherwise (also when it was already empty). -/
theorem deleteDocument_spec (st : DocState) (id : String) :
    (∀ d, d ∈ (deleteDocument st id).documents ↔
      (d ∈ st.documents ∧ d.id ≠ id)) ∧
    (deleteDocument st id).selectedDocument =
      (if st.selectedDocument.any (fun doc => doc.id = id) then none
       else st.selectedDocument) := by
  constructor
  · intro d
    simp [deleteDocument, List.mem_filter]
  · cases hsel : st.selectedDocument with
    | none => simp [deleteDocument, hsel]
    | some doc =>
      by_cases h : doc.id = id
      · simp [deleteDocument, hsel, h]
      · simp [deleteDocument, hsel, h]

/-- Witness for C4: deleting the selected document's id clears the
selection, deleting another id leaves it alone. -/
theorem deleteDocument_spec_witness :
    (deleteDocument stateA "1").selectedDocument = none ∧
    (deleteDocument stateA "2").selectedDocument = some docA := by
  constructor
  · rw [(deleteDocument_spec stateA "1").2]
    decide
  · rw [(deleteDocument_spec stateA "2").2]
    decide

/-- The filter predicate of the derivation, expressed as the claim words it:
name, uploader, or clientCase contains the search term case-insensitively,
and the type equals the filter or the filter is "all". -/
theorem matchesDoc_eq_true_iff (term ft : String) (d : Document) :
    matchesDoc term ft d = true ↔
      ((jsIncludes (jsToLower d.name) (jsToLower term) = true ∨
        jsIncludes (jsToLower d.uploader) (jsToLower term) = true ∨
        (∃ c, d.clientCase = some c ∧
          jsIncludes (jsToLower c) (jsToLower term) = true)) ∧
       (ft = "all" ∨ d.type = ft)) := by
  unfold matchesDoc
  rcases hcc : d.clientCase with _ | c
  · simp [hcc]
  · simp [hcc, or_assoc]

/-- Claim C3: the derived document list contains exactly the records whose
name, uploader, or clientCase case-insensitively contains the search term
and whose type equals the filter (or the filter is "all"), ordered by the
chosen key — lexicographic on names/uploaders, chronological on upload
dates — in the chosen direction. -/
theorem documentList_filter_sort_spec (docs : List Document)
    (term ft : String) (k : SortKey) (o : SortOrder) :
    (∀ d, d ∈ filteredDocuments docs term ft k o ↔
      (d ∈ docs ∧
        ((jsIncludes (jsToLower d.name) (jsToLower term) = true ∨
          jsIncludes (jsToLower d.uploader) (jsToLower term) = true ∨
          (∃ c, d.clientCase = some c ∧
            jsIncludes (jsToLower c) (jsToLower term) = true)) ∧
         (ft = "all" ∨ d.type = ft)))) ∧
    List.Sorted (dirOrder k o) (filteredDocuments docs term ft k o) := by
  constructor
  · intro d
    rw [filteredDocuments, List.mem_insertionSort, List.mem_filter,
      matchesDoc_eq_true_iff]
  · have hs : List.Sorted (docLe k o)
        ((docs.filter (matchesDoc term ft)).insertionSort (docLe k o)) := by
      haveI : IsTotal Document (docLe k o) := ⟨docLe_total k o⟩
      haveI : IsTrans Document (docLe k o) :=
        ⟨fun _ _ _ hab hbc => docLe_trans k o hab hbc⟩
      exact List.sorted_insertionSort _ _
    exact hs.imp (fun h => (effCompare_le_iff k o _ _).mp h)

/-- Claim C10: with an empty search term the derivation equals the
derivation restricted to the type filter alone — an empty search term never
excludes any record, because every string contains the empty string. -/
theorem documentList_emptySearch_spec (docs : List Document) (ft : String)
    (k : SortKey) (o : SortOrder) :
    filteredDocuments docs "" ft k o = filteredDocumentsTypeOnly docs ft k o ∧
    ∀ s : String, jsIncludes s "" = true := by
  refine ⟨?_, jsIncludes_empty_needle⟩
  unfold filteredDocuments filteredDocumentsTypeOnly
  congr 1
  apply List.filter_congr
  intro d _
  unfold matchesDoc
  simp [jsToLower_empty, jsIncludes_empty_needle]

/-- Counterexample to claim C5 as stated: with a blank tags string the
upload flow stores the empty tag list, while "the tags string split on
commas with each element trimmed" is `[""]` (splitting the empty string
yields one empty piece). -/
theorem documentUpload_tags_counterexample :
    (mkUploadDocument "u1" "notes.pdf" "application/pdf" 10 "Current User"
      "" "" "2024-10-15" "blob:1").tags = [] ∧
    splitTrimTags "" = [""] ∧
    (mkUploadDocument "u1" "notes.pdf" "application/pdf" 10 "Current User"
      "" "" "2024-10-15" "blob:1").tags ≠ splitTrimTags "" :=
  ⟨by decide, by decide, by decide⟩

/-- Claim C5 amended: the record inserted when an upload completes has type
`pdf` when the declared content type contains "pdf", else `image` when it
contains "image", else `docx`; its tags are the user-entered tags string
split on commas and trimmed when that string is non-empty, and the empty
list when it is blank; its clientCase is absent when the user-entered
clientCase is blank and kept verbatim otherwise. -/
theorem documentUpload_record_spec (ufId fileName declaredType : String)
    (fileSize : Nat) (uploader tags clientCase : String)
    (today url : String) :
    (jsIncludes declaredType "pdf" = true →
      (mkUploadDocument ufId fileName declaredType fileSize uploader tags
        clientCase today url).type = "pdf") ∧
    (jsIncludes declaredType "pdf" = false →
      jsIncludes declaredType "image" = true →
      (mkUploadDocument ufId fileName declaredType fileSize uploader tags
        clientCase today url).type = "image") ∧
    (jsIncludes declaredType "pdf" = false →
      jsIncludes declaredType "image" = false →
      (mkUploadDocument ufId fileName declaredType fileSize uploader tags
        clientCase today url).type = "docx") ∧
    (tags ≠ "" →
      (mkUploadDocument ufId fileName declaredType fileSize uploader tags
        clientCase today url).tags = splitTrimTags tags) ∧
    (tags = "" →
      (mkUploadDocument ufId fileName declaredType fileSize uploader tags
        clientCase today url).tags = []) ∧
    (clientCase = "" →
      (mkUploadDocument ufId fileName declaredType fileSize uploader tags
        clientCase today url).clientCase = none) ∧
    (clientCase ≠ "" →
      (mkUploadDocument ufId fileName declaredType fileSize uploader tags
        clientCase today url).clientCase = some clientCase) := by
  refine ⟨?_, ?_, ?_, ?_, ?_, ?_, ?_⟩
  · intro h; simp [mkUploadDocument, classifyFileType, h]
  · intro h1 h2; simp [mkUploadDocument, classifyFileType, h1, h2]
  · intro h1 h2; simp [mkUploadDocument, classifyFileType, h1, h2]
  · intro h; simp [mkUploadDocument, splitTrimTags, h]
  · intro h; simp [mkUploadDocument, h]
  · intro h; simp [mkUploadDocument, h]
  · intro h; simp [mkUploadDocument, h]

/-- Witness for C5 amended at the spec's scenario: an `application/pdf` file
with tags "Contract, Client" and a named case. -/
theorem documentUpload_record_spec_witness :
    (mkUploadDocument "u1" "agreement.pdf" "application/pdf" 245
      "Current User" "Contract, Client" "Smith v. Jones" "2024-10-15"
      "blob:1").type = "pdf" ∧
    (mkUploadDocument "u1" "agreement.pdf" "application/pdf" 245
      "Current User" "Contract, Client" "Smith v. Jones" "2024-10-15"
      "blob:1").tags = ["Contract", "Client"] ∧
    (mkUploadDocument "u1" "agreement.pdf" "application/pdf" 245
      "Current User" "Contract, Client" "Smith v. Jones" "2024-10-15"
      "blob:1").clientCase = some "Smith v. Jones" := by
  have h := documentUpload_record_spec "u1" "agreement.pdf" "application/pdf"
    245 "Current User" "Contract, Client" "Smith v. Jones" "2024-10-15"
    "blob:1"
  refine ⟨h.1 (by decide), ?_, h.2.2.2.2.2.2 (by decide)⟩
  rw [h.2.2.2.1 (by decide)]
  decide

/-- Witness for C7: clicking the active `date` column flips `desc`, and
clicking `name` from there resets to ascending. -/
theorem documentList_handleSort_spec_witness :
    ((handleSort ⟨SortKey.date, SortOrder.desc⟩ SortKey.date).sortBy = SortKey.date ∧
      (handleSort ⟨SortKey.date, SortOrder.desc⟩ SortKey.date).sortOrder ≠ SortOrder.desc) ∧
    ((handleSort ⟨SortKey.date, SortOrder.desc⟩ SortKey.name).sortBy = SortKey.name ∧
      (handleSort ⟨SortKey.date, SortOrder.desc⟩ SortKey.name).sortOrder = SortOrder.asc) :=
  ⟨(documentList_handleSort_spec ⟨SortKey.date, SortOrder.desc⟩ SortKey.date).1 rfl,
   (documentList_handleSort_spec ⟨SortKey.date, SortOrder.desc⟩ SortKey.name).2
     (by decide)⟩

end CaseTracker
